import Mathlib

/-!
Verification of the `reedos_address_space` virtual-memory bookkeeping core
(`src/address_space.rs`, `src/data_source.rs`).

The Rust code is shallowly embedded as executable Lean definitions:

* `MapEntry` mirrors the Rust struct (the data source reference is modelled
  as an identifier of type `Nat`, wrapped in `Option` exactly as in Rust).
* `AddressSpace` mirrors the Rust struct; the `SgSet<MapEntry, N_PAGES>`
  is represented as a list of entries in the set's iteration order
  (ascending address order for every set built through the public API),
  with the set's fixed capacity `N_PAGES` enforced at each insertion.
* The const generic parameters `N_PAGES`, `PAGE_SIZE`, `MIN_GAP_SIZE` are
  bundled in a `Config` value passed to every operation.
* Fallible operations return the Rust `Result` as `Except String`, paired
  with the post-state of the address space.  Operations that can abort at
  runtime in debug builds — a `usize` subtract-with-overflow in
  `find_space_for`, an `SgSet::insert` on a set already at capacity, or a
  failing `debug_assert!` on the result of `insert` — return
  `Option (...)`, where `none` models the abort.
-/

namespace VmApi

/-- Rust `MapEntry { addr, length, source }` from `src/address_space.rs`.
The `source` field is `Option` of a data-source identifier, mirroring the
Rust `Option<&'a dyn DataSource>` (lookup/removal probes use `None`). -/
structure MapEntry where
  addr : Nat
  length : Nat
  source : Option Nat
deriving DecidableEq

/-- Rust `MapEntry::end` (renamed: `end` is a reserved word in Lean):
`self.addr + self.length`. -/
def MapEntry.endAddr (m : MapEntry) : Nat := m.addr + m.length

/-- The const generic parameters of the Rust
`AddressSpace<'a, N_PAGES, PAGE_SIZE, MIN_GAP_SIZE>`
(in Rust, `MIN_GAP_SIZE` defaults to `PAGE_SIZE`). -/
structure Config where
  nPages : Nat
  pageSize : Nat
  minGapSize : Nat
deriving DecidableEq

/-- Rust `AddressSpace { name, mappings }`; the `SgSet` is represented by the
list of its elements in iteration (ascending-address) order. -/
structure AddressSpace where
  name : String
  mappings : List MapEntry
deriving DecidableEq

/-- Rust `AddressSpace::new(name)`: empty mapping set. -/
def AddressSpace.new (name : String) : AddressSpace := ⟨name, []⟩

/-- Rust `AddressSpace::total_capacity()`: `N_PAGES * PAGE_SIZE`. -/
def Config.totalCapacity (c : Config) : Nat := c.nPages * c.pageSize

/-- Rust `AddressSpace::free_regions`: zip of
`once(0).chain(mappings.iter().map(end))` with
`mappings.iter().map(addr).chain(once(total_capacity()))`. -/
def freeRegions (c : Config) (ms : List MapEntry) : List (Nat × Nat) :=
  List.zip (0 :: ms.map MapEntry.endAddr) (ms.map MapEntry.addr ++ [c.totalCapacity])

/-- Rust `AddressSpace::is_space_at(addr, length)`: find the first free
region whose end exceeds `addr`; the request fits when
`s + MIN_GAP_SIZE <= addr && addr + length + MIN_GAP_SIZE < e`. -/
def isSpaceAt (c : Config) (ms : List MapEntry) (addr len : Nat) : Bool :=
  match (freeRegions c ms).find? (fun r => addr < r.2) with
  | none => false
  | some r => decide (r.1 + c.minGapSize ≤ addr) && decide (addr + len + c.minGapSize < r.2)

/-- Rust `usize::next_multiple_of(rhs)` (the standard library definition:
`match self % rhs { 0 => self, r => self + (rhs - r) }`). -/
def nextMultipleOf (a p : Nat) : Nat :=
  if a % p = 0 then a else a + (p - a % p)

/-- The scan of Rust `AddressSpace::find_space_for(length)` over a region
list: in each region the candidate start is
`(s + MIN_GAP_SIZE).next_multiple_of(PAGE_SIZE)` and the usable end is the
`usize` subtraction `e - MIN_GAP_SIZE`, which aborts (subtract with
overflow, in debug builds) when the region's end is below `MIN_GAP_SIZE` —
the outer `none` models that abort.  `some none` is Rust's `None` (scan
completed, no region qualifies); `some (some start)` is Rust's
`Some(start)`.  A region is skipped when `start > end` or
`end - start < length` (the latter subtraction cannot underflow: it is
guarded by the short-circuiting `start > end` test). -/
def findSpaceForAux (c : Config) (len : Nat) : List (Nat × Nat) → Option (Option Nat)
  | [] => some none
  | r :: rest =>
    if r.2 < c.minGapSize then none
    else
      let start := nextMultipleOf (r.1 + c.minGapSize) c.pageSize
      let stop := r.2 - c.minGapSize
      if start > stop ∨ stop - start < len then findSpaceForAux c len rest
      else some (some start)

/-- Rust `AddressSpace::find_space_for(length)`: first-fit scan of the free
regions in address order (see `findSpaceForAux` for the abort modelling). -/
def findSpaceFor (c : Config) (ms : List MapEntry) (len : Nat) : Option (Option Nat) :=
  findSpaceForAux c len (freeRegions c ms)

/-- `SgSet` iteration-order insertion: place the new entry before the first
entry with a greater-or-equal address; an entry equal to an existing one
(equality of `MapEntry` is by `addr` alone) leaves the set unchanged. -/
def insertSorted (ms : List MapEntry) (e : MapEntry) : List MapEntry :=
  match ms with
  | [] => [e]
  | m :: rest =>
    if e.addr < m.addr then e :: m :: rest
    else if e.addr = m.addr then m :: rest
    else m :: insertSorted rest e

/-- Whether the set holds an entry with address `a` (`MapEntry` equality is
by `addr` alone). -/
def containsAddr (ms : List MapEntry) (a : Nat) : Bool :=
  ms.any (fun m => m.addr = a)

/-- Rust `SgSet::insert` on a set of capacity `cap`: returns the updated set
and whether the value was newly inserted; `none` models the abort raised when
the set is already at capacity and the value is not present. -/
def sgInsert (cap : Nat) (ms : List MapEntry) (e : MapEntry) :
    Option (List MapEntry × Bool) :=
  if containsAddr ms e.addr then some (ms, false)
  else if ms.length < cap then some (insertSorted ms e, true)
  else none

/-- Rust `SgSet::remove` keyed by address: removes the (first) entry whose
address equals `a`, returning the updated set and whether anything was
removed. -/
def sgRemove (ms : List MapEntry) (a : Nat) : List MapEntry × Bool :=
  match ms with
  | [] => ([], false)
  | m :: rest =>
    if m.addr = a then (rest, true)
    else
      let r := sgRemove rest a
      (m :: r.1, r.2)

/-- Rust `AddressSpace::add_mapping(source, length)`: find space first-fit,
then `debug_assert!(self.mappings.insert(MapEntry { addr, length, source }))`.
The result pairs the Rust `Result<VirtualAddress, AsError>` with the
post-state; `none` models an abort — an underflow inside `find_space_for`
(propagated from `findSpaceForAux`), the set being at capacity, or the
`debug_assert!` observing `insert` return `false`. -/
def addMapping (c : Config) (sp : AddressSpace) (source len : Nat) :
    Option (Except String Nat × AddressSpace) :=
  match findSpaceFor c sp.mappings len with
  | none => none
  | some none => some (Except.error "no space available", sp)
  | some (some addr) =>
    match sgInsert c.nPages sp.mappings ⟨addr, len, some source⟩ with
    | none => none
    | some (_, false) => none
    | some (ms, true) => some (Except.ok addr, { sp with mappings := ms })

/-- Rust `AddressSpace::add_mapping_at(addr, source, length)`: reject when
`is_space_at` is false, otherwise insert exactly at `addr` (same insertion
and abort modelling as `addMapping`). -/
def addMappingAt (c : Config) (sp : AddressSpace) (addr source len : Nat) :
    Option (Except String Unit × AddressSpace) :=
  if isSpaceAt c sp.mappings addr len then
    match sgInsert c.nPages sp.mappings ⟨addr, len, some source⟩ with
    | none => none
    | some (_, false) => none
    | some (ms, true) => some (Except.ok (), { sp with mappings := ms })
  else some (Except.error "no space available there", sp)

/-- Rust `AddressSpace::remove_mapping(start)`: remove the entry whose
address equals `start` (the probe's length and source are ignored by the
address-only equality); error when nothing was removed. -/
def removeMapping (c : Config) (sp : AddressSpace) (start : Nat) :
    Except String Unit × AddressSpace :=
  match sgRemove sp.mappings start with
  | (_, false) => (Except.error "no mapping at that address to remove", sp)
  | (ms, true) => (Except.ok (), { sp with mappings := ms })

/-- Rust flags struct (six booleans).  The Rust field `private` is renamed
`priv` because `private` is a reserved word in Lean. -/
structure Flags where
  read : Bool
  write : Bool
  execute : Bool
  cow : Bool
  priv : Bool
  shared : Bool
deriving DecidableEq

/-- Rust `FlagBuilder`: same six booleans, without the validation invariant. -/
structure FlagBuilder where
  read : Bool
  write : Bool
  execute : Bool
  cow : Bool
  priv : Bool
  shared : Bool
deriving DecidableEq

/-- Rust `FlagBuilder::validate`: `assert!(!(self.private && self.shared))`
followed by field-wise conversion to `Flags`; `none` models the abort of the
failing `assert!`. -/
def FlagBuilder.validate (b : FlagBuilder) : Option Flags :=
  if b.priv && b.shared then none
  else some ⟨b.read, b.write, b.execute, b.cow, b.priv, b.shared⟩

/-- Rust `FlagBuilder::and`: field-wise boolean or. -/
def FlagBuilder.and (a b : FlagBuilder) : FlagBuilder :=
  ⟨a.read || b.read, a.write || b.write, a.execute || b.execute,
   a.cow || b.cow, a.priv || b.priv, a.shared || b.shared⟩

/-- Rust `FlagBuilder::but_not`: field-wise `self && !other`. -/
def FlagBuilder.but_not (a b : FlagBuilder) : FlagBuilder :=
  ⟨a.read && !b.read, a.write && !b.write, a.execute && !b.execute,
   a.cow && !b.cow, a.priv && !b.priv, a.shared && !b.shared⟩

/-- Rust `AddressSpace::get_source_for_addr(addr, access_type)`:
`SgSet::get` with a probe entry (equality is by `addr` alone), then
`.and_then(|m| m.source)`.  The `access_type` parameter is accepted and
ignored, as in the Rust code. -/
def getSourceForAddr (c : Config) (sp : AddressSpace) (addr : Nat)
    (access_type : Flags) : Option Nat :=
  (sp.mappings.find? (fun m => m.addr = addr)).bind (fun m => m.source)

/-- Pairwise gap check of Rust `assert_valid`: for consecutive entries,
`m1.end() + MIN_GAP_SIZE <= m2.addr`. -/
def pairwiseGapOk (c : Config) : List MapEntry → Bool
  | m1 :: m2 :: rest =>
    decide (m1.endAddr + c.minGapSize ≤ m2.addr) && pairwiseGapOk c (m2 :: rest)
  | _ => true

/-- Rust `AddressSpace::assert_valid` as a boolean predicate: the zero page
is free, consecutive mappings keep the minimum gap, and every address is
`PAGE_SIZE`-aligned (in Rust each conjunct is an `assert!`). -/
def assertValid (c : Config) (sp : AddressSpace) : Bool :=
  (!sp.mappings.any (fun m => m.addr < c.pageSize)) &&
  pairwiseGapOk c sp.mappings &&
  sp.mappings.all (fun m => m.addr % c.pageSize = 0)

/-- Modelled from the spec's placement-algorithm wording:
`round_up(x, page_size)` as `((x + page_size - 1) / page_size) * page_size`. -/
def roundUp (a p : Nat) : Nat := ((a + p - 1) / p) * p

/-- Modelled from the spec's placement-algorithm wording: a free region
qualifies for `length` when `s' ≤ e'` and `e' - s' ≥ length`, where
`s' = round_up(region_start + min_gap_size, page_size)` and
`e' = region_end - min_gap_size`. -/
def specQualifies (c : Config) (len : Nat) (r : Nat × Nat) : Bool :=
  let s' := roundUp (r.1 + c.minGapSize) c.pageSize
  let e' := r.2 - c.minGapSize
  decide (s' ≤ e') && decide (len ≤ e' - s')

/-- Modelled from the spec's placement-algorithm wording: scan the free
regions in address order and return the first qualifying region's `s'`. -/
def specFirstFit (c : Config) (sp : AddressSpace) (len : Nat) : Option Nat :=
  ((freeRegions c sp.mappings).find? (specQualifies c len)).map
    (fun r => roundUp (r.1 + c.minGapSize) c.pageSize)

/-! ### Arithmetic lemmas: `round_up` agrees with `next_multiple_of` -/

lemma multiple_unique {p x y a : Nat} (hp : 0 < p) (hx : p ∣ x) (hy : p ∣ y)
    (hax : a ≤ x) (hxa : x < a + p) (hay : a ≤ y) (hya : y < a + p) : x = y := by
  rcases le_total x y with h | h
  · have hd : p ∣ y - x := Nat.dvd_sub' hy hx
    have hlt : y - x < p := by omega
    have h0 : y - x = 0 := Nat.eq_zero_of_dvd_of_lt hd hlt
    omega
  · have hd : p ∣ x - y := Nat.dvd_sub' hx hy
    have hlt : x - y < p := by omega
    have h0 : x - y = 0 := Nat.eq_zero_of_dvd_of_lt hd hlt
    omega

lemma roundUp_dvd (a p : Nat) : p ∣ roundUp a p := dvd_mul_left p _

lemma le_roundUp (a p : Nat) (hp : 0 < p) : a ≤ roundUp a p := by
  have h1 : a + p - 1 < (a + p - 1) / p * p + p := Nat.lt_div_mul_add hp
  unfold roundUp
  omega

lemma roundUp_lt (a p : Nat) (hp : 0 < p) : roundUp a p < a + p := by
  have h1 : (a + p - 1) / p * p ≤ a + p - 1 := Nat.div_mul_le_self _ _
  unfold roundUp
  omega

lemma nextMultipleOf_dvd (a p : Nat) (hp : 0 < p) : p ∣ nextMultipleOf a p := by
  unfold nextMultipleOf
  by_cases h : a % p = 0
  · simpa [h] using Nat.dvd_of_mod_eq_zero h
  · rw [if_neg h]
    have hd := Nat.div_add_mod a p
    have hm : a % p < p := Nat.mod_lt _ hp
    refine ⟨a / p + 1, ?_⟩
    have he : p * (a / p + 1) = p * (a / p) + p := by ring
    omega

lemma le_nextMultipleOf (a p : Nat) : a ≤ nextMultipleOf a p := by
  unfold nextMultipleOf
  by_cases h : a % p = 0 <;> simp [h]

lemma nextMultipleOf_lt (a p : Nat) (hp : 0 < p) : nextMultipleOf a p < a + p := by
  unfold nextMultipleOf
  have hm : a % p < p := Nat.mod_lt _ hp
  by_cases h : a % p = 0 <;> simp [h] <;> omega

lemma roundUp_eq_nextMultipleOf (a p : Nat) (hp : 0 < p) :
    roundUp a p = nextMultipleOf a p :=
  multiple_unique hp (roundUp_dvd a p) (nextMultipleOf_dvd a p hp)
    (le_roundUp a p hp) (roundUp_lt a p hp)
    (le_nextMultipleOf a p) (nextMultipleOf_lt a p hp)

/-! ### When `find_space_for` returns normally with an address, that address
is the spec's first-fit placement (when the scan aborts the code returns
nothing at all, so only this direction is meaningful). -/

lemma find_first_fit_aux (c : Config) (len : Nat) (hp : 0 < c.pageSize)
    (l : List (Nat × Nat)) (a : Nat)
    (h : findSpaceForAux c len l = some (some a)) :
    (l.find? (specQualifies c len)).map
      (fun r => roundUp (r.1 + c.minGapSize) c.pageSize) = some a := by
  induction l with
  | nil => simp [findSpaceForAux] at h
  | cons r t ih =>
    unfold findSpaceForAux at h
    by_cases hu : r.2 < c.minGapSize
    · rw [if_pos hu] at h
      simp at h
    · rw [if_neg hu] at h
      have hru := roundUp_eq_nextMultipleOf (r.1 + c.minGapSize) c.pageSize hp
      by_cases hcond : nextMultipleOf (r.1 + c.minGapSize) c.pageSize > r.2 - c.minGapSize
          ∨ (r.2 - c.minGapSize) - nextMultipleOf (r.1 + c.minGapSize) c.pageSize < len
      · rw [if_pos hcond] at h
        have hq : specQualifies c len r = false := by
          have hnot : ¬ specQualifies c len r = true := by
            simp only [specQualifies, Bool.and_eq_true, decide_eq_true_eq, hru]
            omega
          simpa using hnot
        simp only [List.find?_cons, hq]
        exact ih h
      · rw [if_neg hcond] at h
        simp only [Option.some.injEq] at h
        have hq : specQualifies c len r = true := by
          simp only [specQualifies, Bool.and_eq_true, decide_eq_true_eq, hru]
          omega
        simp only [List.find?_cons, hq, Option.map_some', hru]
        exact congrArg some h

lemma specFirstFit_of_findSpaceFor (c : Config) (hp : 0 < c.pageSize)
    (sp : AddressSpace) (len a : Nat)
    (h : findSpaceFor c sp.mappings len = some (some a)) :
    specFirstFit c sp len = some a :=
  find_first_fit_aux c len hp (freeRegions c sp.mappings) a h

/-! ### Lemmas about the sorted insertion and removal -/

lemma mem_insertSorted_self (ms : List MapEntry) (e : MapEntry)
    (h : containsAddr ms e.addr = false) : e ∈ insertSorted ms e := by
  induction ms with
  | nil => simp [insertSorted]
  | cons m rest ih =>
    simp only [containsAddr, List.any_cons, Bool.or_eq_false_iff,
      decide_eq_false_iff_not] at h
    unfold insertSorted
    rcases Nat.lt_trichotomy e.addr m.addr with hlt | heq | hgt
    · simp [hlt]
    · exact absurd heq.symm h.1
    · have h1 : ¬ e.addr < m.addr := by omega
      have h2 : ¬ e.addr = m.addr := by omega
      simp only [h1, h2, if_false]
      exact List.mem_cons_of_mem m (ih h.2)

lemma mem_of_mem_insertSorted {ms : List MapEntry} {e x : MapEntry}
    (h : x ∈ insertSorted ms e) : x ∈ ms ∨ x = e := by
  induction ms with
  | nil => simpa [insertSorted] using h
  | cons m rest ih =>
    unfold insertSorted at h
    by_cases h1 : e.addr < m.addr
    · rw [if_pos h1] at h
      simp only [List.mem_cons] at h ⊢
      tauto
    · rw [if_neg h1] at h
      by_cases h2 : e.addr = m.addr
      · rw [if_pos h2] at h
        exact Or.inl h
      · rw [if_neg h2] at h
        simp only [List.mem_cons] at h ⊢
        rcases h with h | h
        · tauto
        · rcases ih h with h | h <;> tauto

lemma sgRemove_insertSorted (ms : List MapEntry) (e : MapEntry)
    (h : containsAddr ms e.addr = false) :
    sgRemove (insertSorted ms e) e.addr = (ms, true) := by
  induction ms with
  | nil => simp [insertSorted, sgRemove]
  | cons m rest ih =>
    simp only [containsAddr, List.any_cons, Bool.or_eq_false_iff,
      decide_eq_false_iff_not] at h
    unfold insertSorted
    rcases Nat.lt_trichotomy e.addr m.addr with hlt | heq | hgt
    · simp [hlt, sgRemove]
    · exact absurd heq.symm h.1
    · have h1 : ¬ e.addr < m.addr := by omega
      have h2 : ¬ e.addr = m.addr := by omega
      simp only [h1, h2, if_false]
      have hm : ¬ m.addr = e.addr := h.1
      simp [sgRemove, hm, ih h.2]

/-! ### Inversion of a successful `add_mapping` -/

lemma addMapping_ok_inv {c : Config} {sp sp' : AddressSpace} {src len a : Nat}
    (h : addMapping c sp src len = some (Except.ok a, sp')) :
    findSpaceFor c sp.mappings len = some (some a) ∧
    containsAddr sp.mappings a = false ∧
    sp.mappings.length < c.nPages ∧
    sp' = { sp with mappings := insertSorted sp.mappings ⟨a, len, some src⟩ } := by
  unfold addMapping at h
  cases hf : findSpaceFor c sp.mappings len with
  | none => rw [hf] at h; simp at h
  | some o =>
    cases o with
    | none => rw [hf] at h; simp at h
    | some addr =>
      rw [hf] at h
      dsimp only [sgInsert] at h
      by_cases hc : containsAddr sp.mappings addr = true
      · rw [if_pos hc] at h; simp at h
      · have hc' : containsAddr sp.mappings addr = false := by simpa using hc
        rw [if_neg hc] at h
        by_cases hl : sp.mappings.length < c.nPages
        · rw [if_pos hl] at h
          simp only [Option.some.injEq, Prod.mk.injEq, Except.ok.injEq] at h
          obtain ⟨ha, hsp⟩ := h
          subst ha
          exact ⟨rfl, hc', hl, hsp.symm⟩
        · rw [if_neg hl] at h; simp at h

lemma addMappingAt_ok_inv {c : Config} {sp sp' : AddressSpace} {addr src len : Nat}
    (h : addMappingAt c sp addr src len = some (Except.ok (), sp')) :
    isSpaceAt c sp.mappings addr len = true ∧
    containsAddr sp.mappings addr = false ∧
    sp.mappings.length < c.nPages ∧
    sp' = { sp with mappings := insertSorted sp.mappings ⟨addr, len, some src⟩ } := by
  unfold addMappingAt at h
  by_cases hs : isSpaceAt c sp.mappings addr len = true
  · rw [if_pos hs] at h
    dsimp only [sgInsert] at h
    by_cases hc : containsAddr sp.mappings addr = true
    · rw [if_pos hc] at h; simp at h
    · have hc' : containsAddr sp.mappings addr = false := by simpa using hc
      rw [if_neg hc] at h
      by_cases hl : sp.mappings.length < c.nPages
      · rw [if_pos hl] at h
        simp only [Option.some.injEq, Prod.mk.injEq] at h
        exact ⟨hs, hc', hl, h.2.symm⟩
      · rw [if_neg hl] at h; simp at h
  · rw [if_neg hs] at h; simp at h

/-! ### Claim theorems -/

/-- Claim C1: a successful `add_mapping(source, length)` returns the address
`s'` of the first free region, scanned in address order over
`[0, capacity)`, that qualifies — where
`s' = round_up(region_start + MIN_GAP_SIZE, PAGE_SIZE)`,
`e' = region_end - MIN_GAP_SIZE`, and the region qualifies exactly when
`s' ≤ e'` and `e' - s' ≥ length` — and after the call the mapping set
contains a new entry with that start address and the given length. -/
theorem add_mapping_first_fit (c : Config) (sp sp' : AddressSpace)
    (src len a : Nat) (hp : 0 < c.pageSize)
    (h : addMapping c sp src len = some (Except.ok a, sp')) :
    specFirstFit c sp len = some a ∧
    (⟨a, len, some src⟩ : MapEntry) ∈ sp'.mappings := by
  obtain ⟨hf, hc, hl, hsp⟩ := addMapping_ok_inv h
  refine ⟨specFirstFit_of_findSpaceFor c hp sp len a hf, ?_⟩
  rw [hsp]
  exact mem_insertSorted_self sp.mappings ⟨a, len, some src⟩ hc

/-- Claim C1 witness: concrete instance on `AddressSpace::<6, 20, 20>`. -/
theorem add_mapping_first_fit_witness :
    specFirstFit ⟨6, 20, 20⟩ (AddressSpace.new "w") 20 = some 20 ∧
    (⟨20, 20, some 3⟩ : MapEntry) ∈
      (⟨"w", [⟨20, 20, some 3⟩]⟩ : AddressSpace).mappings :=
  add_mapping_first_fit ⟨6, 20, 20⟩ (AddressSpace.new "w")
    ⟨"w", [⟨20, 20, some 3⟩]⟩ 3 20 20 (by decide) rfl

/-- Claim C2 (code-bug exhibit): in an `AddressSpace::<6, 20, 20>` holding
the single mapping `[20, 40)` backed by source `7` — a state reached through
the public API — looking up address `21`, which lies strictly inside the
mapping, returns `none`: `SgSet::get` compares the probe by exact start
address only, so only a mapping's start address ever resolves, contradicting
the claim that every covered address resolves to the mapping's source. -/
theorem get_source_for_addr_interior_miss :
    addMappingAt ⟨6, 20, 20⟩ (AddressSpace.new "t") 20 7 20
      = some (Except.ok (), ⟨"t", [⟨20, 20, some 7⟩]⟩) ∧
    (20 ≤ 21 ∧ 21 < MapEntry.endAddr ⟨20, 20, some 7⟩) ∧
    getSourceForAddr ⟨6, 20, 20⟩ ⟨"t", [⟨20, 20, some 7⟩]⟩ 21
      ⟨true, false, false, false, false, false⟩ = none :=
  ⟨rfl, by decide, rfl⟩

/-- Claim C3 (code-bug exhibit): on an empty `AddressSpace::<6, 20, 20>`,
`add_mapping_at(30, src, 20)` succeeds and inserts an entry at address `30`
even though `30` is not a multiple of `PAGE_SIZE = 20`: `is_space_at`
performs no page-alignment check, contradicting the claim that such a call
fails with `NoSpaceAt`. -/
theorem add_mapping_at_accepts_unaligned :
    (¬ 30 % 20 = 0) ∧
    isSpaceAt ⟨6, 20, 20⟩ [] 30 20 = true ∧
    addMappingAt ⟨6, 20, 20⟩ (AddressSpace.new "t") 30 5 20
      = some (Except.ok (), ⟨"t", [⟨30, 20, some 5⟩]⟩) :=
  ⟨by decide, rfl, rfl⟩

/-- Claim C4 (code-bug exhibit): starting from `AddressSpace::<6, 20, 20>::new`,
the single call `add_mapping_at(30, src, 20)` reaches a state on which the
code's own validator `assert_valid` fails (the entry's address `30` is not
`PAGE_SIZE`-aligned), so the claimed invariants do not survive arbitrary
`add_mapping_at` calls. -/
theorem unaligned_add_breaks_invariants :
    addMappingAt ⟨6, 20, 20⟩ (AddressSpace.new "t") 30 5 20
      = some (Except.ok (), ⟨"t", [⟨30, 20, some 5⟩]⟩) ∧
    assertValid ⟨6, 20, 20⟩ ⟨"t", [⟨30, 20, some 5⟩]⟩ = false :=
  ⟨rfl, rfl⟩

/-- Claim C5 counterexample, two reachable abort paths.  First: with
`N_PAGES = 2`, `PAGE_SIZE = 20`, `MIN_GAP_SIZE = 1`, two `add_mapping_at`
calls from the empty space fill the ordered set to its capacity of `2`
entries while a free region still qualifies (`find_space_for 0` returns
`Some(20)`); the following `add_mapping` then attempts `SgSet::insert` on a
full set — modelled as `none`, the runtime abort — instead of returning the
`NoSpace` error as the claim states.  Second: on the empty
`AddressSpace::<1, 20, 1000>`, the scan's `usize` subtraction
`e - MIN_GAP_SIZE` is `20 - 1000`, a subtract-with-overflow abort in debug
builds, so `add_mapping` aborts (again `none`) rather than returning
`NoSpace`. -/
theorem full_set_add_mapping_aborts :
    addMappingAt ⟨2, 20, 1⟩ (AddressSpace.new "t") 1 0 0
      = some (Except.ok (), ⟨"t", [⟨1, 0, some 0⟩]⟩) ∧
    addMappingAt ⟨2, 20, 1⟩ ⟨"t", [⟨1, 0, some 0⟩]⟩ 3 0 0
      = some (Except.ok (), ⟨"t", [⟨1, 0, some 0⟩, ⟨3, 0, some 0⟩]⟩) ∧
    ([⟨1, 0, some 0⟩, ⟨3, 0, some 0⟩] : List MapEntry).length
      = Config.nPages ⟨2, 20, 1⟩ ∧
    findSpaceFor ⟨2, 20, 1⟩ [⟨1, 0, some 0⟩, ⟨3, 0, some 0⟩] 0 = some (some 20) ∧
    addMapping ⟨2, 20, 1⟩ ⟨"t", [⟨1, 0, some 0⟩, ⟨3, 0, some 0⟩]⟩ 0 0 = none ∧
    findSpaceFor ⟨1, 20, 1000⟩ [] 5 = none ∧
    addMapping ⟨1, 20, 1000⟩ (AddressSpace.new "t") 0 5 = none :=
  ⟨rfl, rfl, rfl, rfl, rfl, rfl, rfl⟩

/-- Claim C5 as amended: whenever the free-region scan completes without
aborting and finds no qualifying region for the requested length
(`find_space_for` returns `None`, i.e. `some none` in the model),
`add_mapping` returns the `NoSpace` error (`"no space available"`) with the
address space unchanged; the code never consults the ordered set's
capacity. -/
theorem add_mapping_no_space_error (c : Config) (sp : AddressSpace)
    (src len : Nat) (h : findSpaceFor c sp.mappings len = some none) :
    addMapping c sp src len = some (Except.error "no space available", sp) := by
  unfold addMapping
  rw [h]

/-- Claim C5 witness: a length that fits nowhere in `AddressSpace::<1, 20, 20>`. -/
theorem add_mapping_no_space_error_witness :
    addMapping ⟨1, 20, 20⟩ (AddressSpace.new "w") 9 0
      = some (Except.error "no space available", AddressSpace.new "w") :=
  add_mapping_no_space_error ⟨1, 20, 20⟩ (AddressSpace.new "w") 9 0 rfl

/-- Claim C6 counterexample: `add_mapping(src, 0)` on an empty
`AddressSpace::<6, 20, 20>` succeeds and places an entry of length `0` in
the mapping set — no positivity check exists. -/
theorem zero_length_mapping_inserted :
    addMapping ⟨6, 20, 20⟩ (AddressSpace.new "t") 4 0
      = some (Except.ok 20, ⟨"t", [⟨20, 0, some 4⟩]⟩) ∧
    (⟨20, 0, some 4⟩ : MapEntry) ∈
      (⟨"t", [⟨20, 0, some 4⟩]⟩ : AddressSpace).mappings ∧
    MapEntry.length ⟨20, 0, some 4⟩ = 0 :=
  ⟨rfl, by simp, rfl⟩

/-- Claim C6 as amended: a successful `add_mapping` or `add_mapping_at`
leaves every entry of the mapping set either as it was or equal to the new
entry carrying exactly the requested length (and the given source), so
entries of positive length arise precisely from calls with positive length
arguments, while a length-`0` call does place a zero-length entry. -/
theorem inserted_entries_have_requested_length (c : Config)
    (sp sp₁ sp₂ : AddressSpace) (src len a addr : Nat) (e : MapEntry) :
    (addMapping c sp src len = some (Except.ok a, sp₁) → e ∈ sp₁.mappings →
      e ∈ sp.mappings ∨ e = ⟨a, len, some src⟩) ∧
    (addMappingAt c sp addr src len = some (Except.ok (), sp₂) →
      e ∈ sp₂.mappings → e ∈ sp.mappings ∨ e = ⟨addr, len, some src⟩) := by
  constructor
  · intro h hm
    obtain ⟨-, -, -, hsp⟩ := addMapping_ok_inv h
    rw [hsp] at hm
    exact mem_of_mem_insertSorted hm
  · intro h hm
    obtain ⟨-, -, -, hsp⟩ := addMappingAt_ok_inv h
    rw [hsp] at hm
    exact mem_of_mem_insertSorted hm

/-- Claim C6 witness: concrete successful `add_mapping` and `add_mapping_at`
calls on `AddressSpace::<6, 20, 20>`. -/
theorem inserted_entries_have_requested_length_witness :
    ((⟨20, 20, some 3⟩ : MapEntry) ∈ (AddressSpace.new "w").mappings ∨
      (⟨20, 20, some 3⟩ : MapEntry) = ⟨20, 20, some 3⟩) ∧
    ((⟨60, 20, some 3⟩ : MapEntry) ∈
        (⟨"w", [⟨20, 20, some 3⟩]⟩ : AddressSpace).mappings ∨
      (⟨60, 20, some 3⟩ : MapEntry) = ⟨60, 20, some 3⟩) :=
  ⟨(inserted_entries_have_requested_length ⟨6, 20, 20⟩ (AddressSpace.new "w")
      ⟨"w", [⟨20, 20, some 3⟩]⟩ (AddressSpace.new "w") 3 20 20 60
      ⟨20, 20, some 3⟩).1 rfl (by simp),
   (inserted_entries_have_requested_length ⟨6, 20, 20⟩
      ⟨"w", [⟨20, 20, some 3⟩]⟩ (AddressSpace.new "w")
      ⟨"w", [⟨20, 20, some 3⟩, ⟨60, 20, some 3⟩]⟩ 3 20 0 60
      ⟨60, 20, some 3⟩).2 rfl (by simp)⟩

/-- Claim C7: if `add_mapping(source, length)` succeeds returning address
`a`, then `remove_mapping(a)` succeeds and restores the address space (name
and mapping set) exactly as it was before the add. -/
theorem add_then_remove_round_trip (c : Config) (sp sp' : AddressSpace)
    (src len a : Nat)
    (h : addMapping c sp src len = some (Except.ok a, sp')) :
    removeMapping c sp' a = (Except.ok (), sp) := by
  obtain ⟨-, hc, -, hsp⟩ := addMapping_ok_inv h
  rw [hsp]
  unfold removeMapping
  have hr := sgRemove_insertSorted sp.mappings ⟨a, len, some src⟩ hc
  dsimp only at hr ⊢
  rw [hr]

/-- Claim C7 witness: add a mapping of length `20` to the empty
`AddressSpace::<6, 20, 20>` and remove it again. -/
theorem add_then_remove_round_trip_witness :
    removeMapping ⟨6, 20, 20⟩ ⟨"w", [⟨20, 20, some 3⟩]⟩ 20
      = (Except.ok (), AddressSpace.new "w") :=
  add_then_remove_round_trip ⟨6, 20, 20⟩ (AddressSpace.new "w")
    ⟨"w", [⟨20, 20, some 3⟩]⟩ 3 20 20 rfl

/-- Claim C8: the `and` combinator commutes, and `a.but_not(a)` has all six
fields (`read`, `write`, `execute`, `cow`, `private`, `shared`) false. -/
theorem flag_and_comm_and_but_not_self (a b : FlagBuilder) :
    FlagBuilder.and a b = FlagBuilder.and b a ∧
    FlagBuilder.but_not a a = ⟨false, false, false, false, false, false⟩ := by
  constructor
  · simp [FlagBuilder.and, Bool.or_comm]
  · simp [FlagBuilder.but_not]

/-- Claim C9 counterexample: validating a `FlagBuilder` with both `private`
and `shared` set hits the failing `assert!` inside `validate` — modelled as
`none`, the runtime abort — rather than returning a recoverable typed
`InvalidFlags` error. -/
theorem validate_private_shared_aborts :
    FlagBuilder.validate ⟨false, false, false, false, true, true⟩ = none :=
  rfl

/-- Claim C9 as amended: `validate` aborts (fails its `assert!`, modelled as
`none`) exactly when both `private` and `shared` are set; no typed error
value is ever returned for this case, in line with the function's own
`# Panics` documentation. -/
theorem validate_none_iff_private_and_shared (b : FlagBuilder) :
    FlagBuilder.validate b = none ↔ (b.priv && b.shared) = true := by
  unfold FlagBuilder.validate
  by_cases h : (b.priv && b.shared) = true <;> simp [h]

/-- Claim C10: each of `add_mapping`, `add_mapping_at` and `remove_mapping`
is atomic on failure — whenever the call returns an error, the address space
(name and mapping set) is exactly what it was before the call. -/
theorem error_preserves_state (c : Config) (sp sp₁ sp₂ sp₃ : AddressSpace)
    (src len addr start : Nat) (e₁ e₂ e₃ : String) :
    (addMapping c sp src len = some (Except.error e₁, sp₁) → sp₁ = sp) ∧
    (addMappingAt c sp addr src len = some (Except.error e₂, sp₂) → sp₂ = sp) ∧
    (removeMapping c sp start = (Except.error e₃, sp₃) → sp₃ = sp) := by
  refine ⟨?_, ?_, ?_⟩
  · intro h
    unfold addMapping at h
    cases hf : findSpaceFor c sp.mappings len with
    | none => rw [hf] at h; simp at h
    | some o =>
      cases o with
      | none =>
        rw [hf] at h
        simp only [Option.some.injEq, Prod.mk.injEq, Except.error.injEq] at h
        exact h.2.symm
      | some a0 =>
        rw [hf] at h
        dsimp only [sgInsert] at h
        by_cases hc : containsAddr sp.mappings a0 = true
        · rw [if_pos hc] at h; simp at h
        · rw [if_neg hc] at h
          by_cases hl : sp.mappings.length < c.nPages
          · rw [if_pos hl] at h; simp at h
          · rw [if_neg hl] at h; simp at h
  · intro h
    unfold addMappingAt at h
    by_cases hs : isSpaceAt c sp.mappings addr len = true
    · rw [if_pos hs] at h
      dsimp only [sgInsert] at h
      by_cases hc : containsAddr sp.mappings addr = true
      · rw [if_pos hc] at h; simp at h
      · rw [if_neg hc] at h
        by_cases hl : sp.mappings.length < c.nPages
        · rw [if_pos hl] at h; simp at h
        · rw [if_neg hl] at h; simp at h
    · rw [if_neg hs] at h
      simp only [Option.some.injEq, Prod.mk.injEq, Except.error.injEq] at h
      exact h.2.symm
  · intro h
    unfold removeMapping at h
    rcases hsr : sgRemove sp.mappings start with ⟨ms, b⟩
    rw [hsr] at h
    cases b
    · simp only [Prod.mk.injEq, Except.error.injEq] at h
      exact h.2.symm
    · simp at h

/-- Claim C10 witness: concrete erroring calls on `AddressSpace::<1, 20, 20>`. -/
theorem error_preserves_state_witness :
    AddressSpace.new "w" = AddressSpace.new "w" ∧
    AddressSpace.new "w" = AddressSpace.new "w" ∧
    AddressSpace.new "w" = AddressSpace.new "w" :=
  have h := error_preserves_state ⟨1, 20, 20⟩ (AddressSpace.new "w")
    (AddressSpace.new "w") (AddressSpace.new "w") (AddressSpace.new "w")
    0 0 0 5 "no space available" "no space available there"
    "no mapping at that address to remove"
  ⟨h.1 rfl, h.2.1 rfl, h.2.2 rfl⟩

end VmApi
